import Mathlib

/-!
Verification of the session lifecycle coordinator of the Braien frontend
(src/frontend/src/App.jsx), shallowly embedded in Lean 4.

The embedded fragment is the App component state and its three stateful
operations:
  - cleanupSession (lines 283 to 293): per-session close;
  - handleBeforeUnload (lines 296 to 307): bulk page-exit cleanup;
  - launchBrowser (lines 319 to 359): launch protocol.

JavaScript values that may be undefined (fields read off a parsed JSON
response such as data.session_id) are modelled as Option String / Option Nat.
The React state hooks (sessions, loading, error, launchingBrowser) and the
ref sessionsRef.current (a JS Set of ids, insertion ordered) form the
AppState record.  Asynchronous functions are modelled by passing the
settlement outcome of each awaited fetch as an explicit argument, and by an
event trace that records the order of dispatch, settlement and local
mutation inside one invocation.
-/

set_option autoImplicit false

namespace Braien

/-- JVal models a JavaScript string value that may be undefined:
the id, url and status fields read from the remote JSON payload. -/
abbrev JVal := Option String

/-- Session record built in launchBrowser (App.jsx lines 340 to 347).
Fields mirror the object literal: id from data.session_id, browser from the
requested browserType, url from data.vnc_url, status from data.status,
port from data.port, createdAt from new Date() at insertion time. -/
structure Session where
  id : JVal
  browser : String
  url : JVal
  status : JVal
  port : Option Nat
  createdAt : Nat
deriving DecidableEq, Repr

/-- AppState mirrors the React component state of App (lines 276 to 280):
sessions is the ordered useState list, sessionIds is sessionsRef.current
(a JS Set, modelled as its insertion-ordered list of elements), loading and
error and launchingBrowser are the remaining useState hooks. -/
structure AppState where
  sessions : List Session
  sessionIds : List JVal
  loading : Bool
  error : String
  launchingBrowser : Option String
deriving DecidableEq, Repr

/-- Initial component state: useState([]), useState(false), useState(),
useState(null), useRef(new Set()). -/
def initialState : AppState :=
  { sessions := [], sessionIds := [], loading := false, error := ""
    launchingBrowser := none }

/-- Membership-set insertion, modelling JS Set.add: a no-op when the element
is already present, otherwise appended at the end (JS Sets preserve
insertion order). -/
def setAdd (l : List JVal) (x : JVal) : List JVal :=
  if x ∈ l then l else l ++ [x]

/-- Settlement outcome of one awaited fetch call: the promise either
fulfilled (any HTTP status, since cleanupSession never inspects
response.ok) or rejected with a network error. -/
inductive FetchResult where
  | resolved
  | rejected
deriving DecidableEq, Repr

/-- Local removal performed by cleanupSession after its await succeeds
(App.jsx lines 288 to 289): setSessions(prev filtered on id not equal to
sessionId) and sessionsRef.current.delete(sessionId).  JS Set deletion on
the insertion-ordered element list is a filter. -/
def removeLocal (st : AppState) (sid : JVal) : AppState :=
  { st with
    sessions := st.sessions.filter (fun s => s.id != sid)
    sessionIds := st.sessionIds.filter (fun x => x != sid) }

/-- Result of one cleanupSession invocation: the final component state, the
list of DELETE cleanup requests issued (always exactly one), and whether
the catch branch logged a cleanup error to the console. -/
structure CleanupRun where
  state : AppState
  requests : List JVal
  logged : Bool
deriving DecidableEq, Repr

/-- cleanupSession (App.jsx lines 283 to 293).  The function first awaits
fetch DELETE on the cleanup endpoint; only when that await resumes
normally does it remove the session locally from both representations.
When the fetch rejects, control jumps to the catch block, which only logs:
no state mutation happens at all. -/
def cleanupSession (st : AppState) (sid : JVal) (r : FetchResult) : CleanupRun :=
  match r with
  | .resolved => { state := removeLocal st sid, requests := [sid], logged := false }
  | .rejected => { state := st, requests := [sid], logged := true }

/-- Events of one cleanupSession invocation, in execution order. -/
inductive CleanupEvent where
  | dispatchDelete (sid : JVal)
  | awaitSettled (sid : JVal)
  | removeLocally (sid : JVal)
  | logError
deriving DecidableEq, Repr

/-- Execution trace of cleanupSession: the DELETE request is dispatched,
the function suspends until the promise settles, and only afterwards (on
fulfilment) do the two local removals run; on rejection the catch block
logs and nothing is removed. -/
def cleanupTrace (sid : JVal) : FetchResult → List CleanupEvent
  | .resolved => [.dispatchDelete sid, .awaitSettled sid, .removeLocally sid]
  | .rejected => [.dispatchDelete sid, .logError]

/-- Outcome of the remote launch call awaited by launchBrowser: the fetch
rejects with a network error whose message becomes err.message, or it
resolves with a non-ok status whose JSON body may carry a detail field, or
it resolves ok with a JSON body whose fields may each be absent. -/
inductive LaunchResponse where
  | netError (msg : String)
  | httpError (detail : Option String)
  | success (session_id : JVal) (vnc_url : JVal) (status : JVal) (port : Option Nat)
deriving DecidableEq, Repr

/-- JavaScript falsy-or on a string field read from a JSON body, as in
the expression on App.jsx line 335: an absent field (undefined) and the
empty string are both falsy, so both fall back to the right operand;
every other string is returned itself. -/
def jsFalsyOr (detail : Option String) (fallback : String) : String :=
  match detail with
  | none => fallback
  | some d => if d = "" then fallback else d

/-- launchBrowser (App.jsx lines 319 to 359).  Synchronous prefix: set
loading, set launchingBrowser to the requested kind, clear the error.  On a
non-ok response it throws Error built from the falsy-or of errorData.detail
and the fallback message (line 335); on a rejected fetch the error message
is the transport message; both are caught and stored with setError.  On an
ok response it builds the session object verbatim from the payload (no
validation of any field), appends it to sessions and adds data.session_id
to the ref set.  The finally block clears loading and launchingBrowser on
every path. -/
def launchBrowser (st : AppState) (browserType : String) (resp : LaunchResponse)
    (now : Nat) : AppState :=
  let st1 := { st with loading := true, launchingBrowser := some browserType
                       error := "" }
  match resp with
  | .netError msg =>
      { st1 with error := msg, loading := false, launchingBrowser := none }
  | .httpError detail =>
      { st1 with error := jsFalsyOr detail "Failed to launch browser"
                 loading := false, launchingBrowser := none }
  | .success sid url status port =>
      { st1 with
        sessions := st1.sessions ++ [⟨sid, browserType, url, status, port, now⟩]
        sessionIds := setAdd st1.sessionIds sid
        loading := false, launchingBrowser := none }

/-- snapshotIds: Array.from(sessionsRef.current) taken at the start of
handleBeforeUnload, the point-in-time snapshot of the membership set in
insertion order. -/
def snapshotIds (st : AppState) : List JVal :=
  st.sessionIds

/-- Settlement of one cleanup request dispatched by handleBeforeUnload:
whether its promise fulfilled, and the (abstract) time at which it
settled. -/
structure Settlement where
  ok : Bool
  time : Nat
deriving DecidableEq, Repr

/-- Settlement times of the rejected promises among a batch. -/
def rejectionTimes (outs : List Settlement) : List Nat :=
  (outs.filter (fun o => !o.ok)).map (fun o => o.time)

/-- Maximum of a list of times (0 when empty). -/
def listMaxD (l : List Nat) : Nat :=
  l.foldr max 0

/-- Minimum of a nonempty list of times given as head and tail. -/
def listMinAll (t : Nat) (ts : List Nat) : Nat :=
  ts.foldr min t

/-- Settlement time of Promise.all over a batch: when every promise
fulfils, Promise.all fulfils once the last of them has (the maximum time);
when at least one rejects, Promise.all rejects at the first rejection (the
minimum rejection time), without waiting for the remaining promises. -/
def promiseAllTime (outs : List Settlement) : Nat :=
  match rejectionTimes outs with
  | [] => listMaxD (outs.map (fun o => o.time))
  | t :: ts => listMinAll t ts

/-- Result of one handleBeforeUnload invocation: the component state after
it (the handler never mutates any state), the cleanup requests dispatched,
the time at which the handler itself settles (the try/catch swallows the
rejection of Promise.all, so the handler always resolves, at the moment
Promise.all settles), and whether the catch block logged. -/
structure CloseAllRun where
  state : AppState
  requests : List JVal
  resolveTime : Nat
  logged : Bool
deriving DecidableEq, Repr

/-- handleBeforeUnload (App.jsx lines 297 to 307).  It maps every id of the
snapshot to a fetch DELETE (dispatching all of them eagerly when building
cleanupPromises), then awaits Promise.all over the batch inside try/catch.
The outs argument gives the settlement of the request dispatched for each
snapshot id, positionally. -/
def handleBeforeUnload (st : AppState) (outs : List Settlement) : CloseAllRun :=
  { state := st
    requests := snapshotIds st
    resolveTime := promiseAllTime outs
    logged := !(rejectionTimes outs).isEmpty }

/-- Events of one handleBeforeUnload invocation, in execution order: the
Array.map dispatches every fetch before the single await of Promise.all
runs. -/
inductive BatchEvent where
  | dispatchDelete (sid : JVal)
  | awaitAllSettled
deriving DecidableEq, Repr

/-- Execution trace of handleBeforeUnload: all dispatches first (one per
snapshot id, in snapshot order), then the single suspension on
Promise.all. -/
def closeAllTrace (st : AppState) : List BatchEvent :=
  (snapshotIds st).map BatchEvent.dispatchDelete ++ [BatchEvent.awaitAllSettled]

/-- One user-or-environment action driving the component state: a launch
attempt settling with some response, or a per-session close settling with
some fetch outcome.  handleBeforeUnload is not included because it never
mutates the state. -/
inductive UserAction where
  | launch (browserType : String) (resp : LaunchResponse) (now : Nat)
  | close (sid : JVal) (r : FetchResult)
deriving DecidableEq, Repr

/-- State transition of one action. -/
def stepState (st : AppState) (a : UserAction) : AppState :=
  match a with
  | .launch bt resp now => launchBrowser st bt resp now
  | .close sid r => (cleanupSession st sid r).state

/-- Folding a sequence of actions from a starting state. -/
def applyActions (st : AppState) (acts : List UserAction) : AppState :=
  acts.foldl stepState st

/-- Dual-representation consistency: an id occurs among the sessions of the
ordered list exactly when it is an element of the membership set. -/
def Consistent (st : AppState) : Prop :=
  ∀ x : JVal, (∃ s ∈ st.sessions, s.id = x) ↔ x ∈ st.sessionIds

end Braien

namespace Braien

/-- Example state holding one session with id abc123, as in the spec
scenarios. -/
def exSession1 : Session :=
  { id := some "abc123", browser := "firefox"
    url := some "http://host/vnc/abc123", status := some "running"
    port := some 5901, createdAt := 0 }

/-- Registry state containing exactly the abc123 session. -/
def exState1 : AppState :=
  { sessions := [exSession1], sessionIds := [some "abc123"]
    loading := false, error := "", launchingBrowser := none }

example :
    (cleanupSession exState1 (some "abc123") .resolved).state.sessions = [] := by
  decide

example :
    (cleanupSession exState1 (some "abc123") .rejected).state.sessions
      = [exSession1] := by
  decide

/-- Example registry state with two sessions, ids a and b. -/
def exState2 : AppState :=
  { sessions :=
      [{ id := some "a", browser := "firefox", url := some "http://h/a"
         status := some "running", port := none, createdAt := 0 },
       { id := some "b", browser := "tor", url := some "http://h/b"
         status := some "running", port := none, createdAt := 1 }]
    sessionIds := [some "a", some "b"]
    loading := false, error := "", launchingBrowser := none }

/-- Helper: filtering twice with the same predicate equals filtering
once. -/
theorem filter_idem {α : Type} (p : α → Bool) (l : List α) :
    (l.filter p).filter p = l.filter p := by
  induction l with
  | nil => rfl
  | cons a l ih =>
    by_cases h : p a <;> simp [List.filter_cons, h, ih]

/-- C1 counterexample: on the registry holding session abc123, invoking
close with a rejecting remote call leaves the session in the list (so the
removal does depend on the outcome of the remote call), and on a
fulfilling call the trace shows the local removal strictly after the
request settles, not synchronously before it. -/
theorem c1_close_not_optimistic_counterexample :
    (cleanupSession exState1 (some "abc123") .rejected).state.sessions
        = [exSession1] ∧
    (cleanupSession exState1 (some "abc123") .rejected).state.sessions
        ≠ (cleanupSession exState1 (some "abc123") .resolved).state.sessions ∧
    cleanupTrace (some "abc123") .resolved
        = [.dispatchDelete (some "abc123"), .awaitSettled (some "abc123"),
           .removeLocally (some "abc123")] := by
  refine ⟨by decide, by decide, rfl⟩

/-- C1 (amended): close(X) removes the session from both representations
only after the remote delete request has settled, and only when it
fulfils: when the fetch rejects, the state is entirely unchanged and no
local removal event occurs at all.  The removal therefore depends on the
outcome of the remote call and is not synchronous. -/
theorem c1_close_removes_only_after_resolution (st : AppState) (sid : JVal) :
    (cleanupSession st sid .resolved).state.sessions
        = st.sessions.filter (fun s => s.id != sid) ∧
    (cleanupSession st sid .rejected).state = st ∧
    cleanupTrace sid .resolved
        = [.dispatchDelete sid, .awaitSettled sid, .removeLocally sid] ∧
    CleanupEvent.removeLocally sid ∉ cleanupTrace sid .rejected := by
  refine ⟨rfl, rfl, rfl, ?_⟩
  simp [cleanupTrace]

/-- C2 counterexample: a success response carrying no session_id and no
vnc_url is still inserted: starting from the empty registry, both the
ordered list and the membership set are updated, with a null id and null
url, contradicting the claim that creation fails atomically. -/
theorem c2_malformed_launch_inserted_counterexample :
    (launchBrowser initialState "firefox" (.success none none none none) 0).sessions
        = [{ id := none, browser := "firefox", url := none, status := none
             port := none, createdAt := 0 }] ∧
    (launchBrowser initialState "firefox" (.success none none none none) 0).sessionIds
        = [none] := by
  refine ⟨rfl, by decide⟩

/-- C2 (amended): launchBrowser performs no validation of the success
payload: for every success response, including one missing session_id or
vnc_url, a session built verbatim from the payload is appended to the
ordered list and its (possibly null) id is added to the membership set. -/
theorem c2_launch_success_inserts_unconditionally (st : AppState)
    (bt : String) (sid url status : JVal) (port : Option Nat) (now : Nat) :
    (launchBrowser st bt (.success sid url status port) now).sessions
        = st.sessions ++ [⟨sid, bt, url, status, port, now⟩] ∧
    (launchBrowser st bt (.success sid url status port) now).sessionIds
        = setAdd st.sessionIds sid :=
  ⟨rfl, rfl⟩

/-- C5 counterexample: launching a session whose response reuses the id
abc123 already present in the registry raises no error (the error state
stays empty) and appends a second entry to the ordered list, leaving the
membership set as it was: there is no DuplicateSessionError and the
registry is not left unchanged. -/
theorem c5_duplicate_insert_counterexample :
    (launchBrowser exState1 "tor"
        (.success (some "abc123") (some "http://h/x") (some "running") none) 7).sessions.length
        = 2 ∧
    (launchBrowser exState1 "tor"
        (.success (some "abc123") (some "http://h/x") (some "running") none) 7).error
        = "" ∧
    (launchBrowser exState1 "tor"
        (.success (some "abc123") (some "http://h/x") (some "running") none) 7).sessionIds
        = [some "abc123"] := by
  refine ⟨by decide, rfl, by decide⟩

/-- C5 (amended): inserting a session whose id is already present in the
registry does not fail: the session is appended to the ordered list as a
duplicate entry, the membership set is unchanged (Set.add of a present
element is a no-op), and no error is raised (the error state is the empty
string cleared at the start of the launch). -/
theorem c5_duplicate_insert_appends (st : AppState) (bt : String)
    (sid url status : JVal) (port : Option Nat) (now : Nat)
    (h : sid ∈ st.sessionIds) :
    (launchBrowser st bt (.success sid url status port) now).sessions
        = st.sessions ++ [⟨sid, bt, url, status, port, now⟩] ∧
    (launchBrowser st bt (.success sid url status port) now).sessionIds
        = st.sessionIds ∧
    (launchBrowser st bt (.success sid url status port) now).error = "" := by
  refine ⟨rfl, ?_, rfl⟩
  simp [launchBrowser, setAdd, h]

/-- Witness for c5_duplicate_insert_appends at the registry holding
abc123. -/
theorem c5_duplicate_insert_appends_witness :
    (some "abc123" : JVal) ∈ exState1.sessionIds ∧
    (launchBrowser exState1 "tor"
        (.success (some "abc123") none none none) 7).sessionIds
        = exState1.sessionIds :=
  ⟨by decide,
   (c5_duplicate_insert_appends exState1 "tor" (some "abc123") none none none 7
      (by decide)).2.1⟩

/-- C6 counterexample: when the non-ok body carries detail equal to the
empty string, the surfaced error is the generic fallback message, not the
detail value: the JavaScript falsy-or on line 335 also falls back on an
empty detail, so the claim that the surfaced message equals the detail m
fails at m equal to the empty string. -/
theorem c6_empty_detail_fallback_counterexample :
    (launchBrowser initialState "tor" (.httpError (some "")) 0).error
        = "Failed to launch browser" ∧
    (launchBrowser initialState "tor" (.httpError (some "")) 0).error ≠ "" := by
  refine ⟨rfl, by decide⟩

/-- C6 (amended): when the launch response is a non-ok HTTP status with a
JSON body carrying a nonempty detail m, the registry (both
representations) is unchanged, the surfaced error equals m, and the
launching indicator and loading flag are cleared; when the detail is
absent or the empty string (both falsy in JavaScript), the surfaced error
is the generic fallback message and the registry is still unchanged. -/
theorem c6_launch_http_error_atomic (st : AppState) (bt : String)
    (m : String) (now : Nat) (hm : m ≠ "") :
    (launchBrowser st bt (.httpError (some m)) now).sessions = st.sessions ∧
    (launchBrowser st bt (.httpError (some m)) now).sessionIds = st.sessionIds ∧
    (launchBrowser st bt (.httpError (some m)) now).error = m ∧
    (launchBrowser st bt (.httpError (some m)) now).loading = false ∧
    (launchBrowser st bt (.httpError (some m)) now).launchingBrowser = none ∧
    (launchBrowser st bt (.httpError none) now).error = "Failed to launch browser" ∧
    (launchBrowser st bt (.httpError (some "")) now).error
        = "Failed to launch browser" ∧
    (launchBrowser st bt (.httpError none) now).sessions = st.sessions := by
  refine ⟨rfl, rfl, ?_, rfl, rfl, rfl, rfl, rfl⟩
  simp [launchBrowser, jsFalsyOr, hm]

/-- Witness for c6_launch_http_error_atomic at the quota-exceeded
scenario of the spec. -/
theorem c6_launch_http_error_atomic_witness :
    ("container quota exceeded" : String) ≠ "" ∧
    (launchBrowser initialState "tor"
        (.httpError (some "container quota exceeded")) 0).error
        = "container quota exceeded" :=
  ⟨by decide,
   (c6_launch_http_error_atomic initialState "tor" "container quota exceeded" 0
      (by decide)).2.2.1⟩

/-- C7: removal is idempotent: removing the same id twice in succession
leaves the registry in the same state as removing it once, both at the
level of the local removal and through the full close path, and the
second call raises no error (the close path has no failure mode for an
absent id: it is a filter that leaves the state untouched). -/
theorem c7_remove_idempotent (st : AppState) (sid : JVal) :
    removeLocal (removeLocal st sid) sid = removeLocal st sid ∧
    (cleanupSession (cleanupSession st sid .resolved).state sid .resolved).state
        = (cleanupSession st sid .resolved).state := by
  have h1 : removeLocal (removeLocal st sid) sid = removeLocal st sid := by
    simp [removeLocal, filter_idem]
  exact ⟨h1, h1⟩

/-- C8: a close whose remote delete request fails is invisible to the
user: the whole component state, in particular the user-visible launch
error, is unchanged; exactly one request was issued (never retried), and
the failure is only logged. -/
theorem c8_cleanup_failure_invisible (st : AppState) (sid : JVal) :
    (cleanupSession st sid .rejected).state.error = st.error ∧
    (cleanupSession st sid .rejected).state = st ∧
    (cleanupSession st sid .rejected).requests = [sid] ∧
    (cleanupSession st sid .rejected).logged = true :=
  ⟨rfl, rfl, rfl, rfl⟩

/-- C9: the bulk page-exit cleanup never mutates the component state: for
every registry state and every settlement pattern of the dispatched
requests, the ordered session list and the membership set (indeed the
whole state) after handleBeforeUnload equal their values before it. -/
theorem c9_closeAll_preserves_registry (st : AppState) (outs : List Settlement) :
    (handleBeforeUnload st outs).state.sessions = st.sessions ∧
    (handleBeforeUnload st outs).state.sessionIds = st.sessionIds ∧
    (handleBeforeUnload st outs).state = st :=
  ⟨rfl, rfl, rfl⟩

/-- C10: closing an id absent from both representations still issues
exactly one delete request for it, and in every outcome of that request
the component state is unchanged. -/
theorem c10_close_absent_id (st : AppState) (sid : JVal) (r : FetchResult)
    (h1 : sid ∉ st.sessionIds) (h2 : ∀ s ∈ st.sessions, s.id ≠ sid) :
    (cleanupSession st sid r).requests = [sid] ∧
    (cleanupSession st sid r).state = st := by
  cases r with
  | rejected => exact ⟨rfl, rfl⟩
  | resolved =>
    refine ⟨rfl, ?_⟩
    show removeLocal st sid = st
    have hs : st.sessions.filter (fun s => s.id != sid) = st.sessions := by
      rw [List.filter_eq_self]
      intro s hmem
      simpa using h2 s hmem
    have hi : st.sessionIds.filter (fun x => x != sid) = st.sessionIds := by
      rw [List.filter_eq_self]
      intro x hmem
      simp only [bne_iff_ne, ne_eq, decide_eq_true_eq]
      intro heq
      exact h1 (heq ▸ hmem)
    simp [removeLocal, hs, hi]

/-- Witness for c10_close_absent_id at the registry holding only abc123
and the absent id zzz. -/
theorem c10_close_absent_id_witness :
    (some "zzz" : JVal) ∉ exState1.sessionIds ∧
    (cleanupSession exState1 (some "zzz") .resolved).state = exState1 :=
  ⟨by decide,
   (c10_close_absent_id exState1 (some "zzz") .resolved (by decide)
      (by decide)).2⟩

/-- Membership in the set after a Set.add. -/
theorem mem_setAdd (l : List JVal) (x y : JVal) :
    y ∈ setAdd l x ↔ y ∈ l ∨ y = x := by
  unfold setAdd
  by_cases h : x ∈ l
  · simp only [if_pos h]
    constructor
    · exact Or.inl
    · rintro (hy | rfl)
      · exact hy
      · exact h
  · simp [if_neg h]

/-- Every single action preserves dual-representation consistency. -/
theorem consistent_stepState (st : AppState) (a : UserAction)
    (h : Consistent st) : Consistent (stepState st a) := by
  cases a with
  | launch bt resp now =>
    cases resp with
    | netError msg => exact h
    | httpError d => exact h
    | success sid url status port =>
      intro x
      show (∃ s ∈ st.sessions ++ [⟨sid, bt, url, status, port, now⟩], s.id = x)
          ↔ x ∈ setAdd st.sessionIds sid
      rw [mem_setAdd]
      constructor
      · rintro ⟨s, hmem, rfl⟩
        rcases List.mem_append.mp hmem with h1 | h1
        · exact Or.inl ((h _).mp ⟨s, h1, rfl⟩)
        · rcases List.mem_singleton.mp h1 with rfl
          exact Or.inr rfl
      · rintro (hx | rfl)
        · rcases (h x).mpr hx with ⟨s, hmem, rfl⟩
          exact ⟨s, List.mem_append_left _ hmem, rfl⟩
        · exact ⟨_, List.mem_append_right _ (List.mem_singleton_self _), rfl⟩
  | close sid r =>
    cases r with
    | rejected => exact h
    | resolved =>
      intro x
      show (∃ s ∈ st.sessions.filter (fun s => s.id != sid), s.id = x)
          ↔ x ∈ st.sessionIds.filter (fun y => y != sid)
      constructor
      · rintro ⟨s, hmem, rfl⟩
        rw [List.mem_filter] at hmem
        obtain ⟨h1, h2⟩ := hmem
        exact List.mem_filter.mpr ⟨(h _).mp ⟨s, h1, rfl⟩, h2⟩
      · intro hx
        rw [List.mem_filter] at hx
        obtain ⟨h1, h2⟩ := hx
        rcases (h x).mpr h1 with ⟨s, hmem, rfl⟩
        exact ⟨s, List.mem_filter.mpr ⟨hmem, h2⟩, rfl⟩

/-- C3: starting from the initial (empty) component state, after every
sequence of launch and close actions, with every settlement pattern, an
id occurs in the ordered session list exactly when it is a member of the
set used for cleanup dispatch.  Since every prefix of a sequence is
itself a sequence, this covers every observation point. -/
theorem c3_dual_representation_consistency (acts : List UserAction) :
    Consistent (applyActions initialState acts) := by
  have key : ∀ st, Consistent st → Consistent (applyActions st acts) := by
    induction acts with
    | nil => exact fun st h => h
    | cons a as ih => exact fun st h => ih _ (consistent_stepState st a h)
  refine key initialState ?_
  intro x
  simp [initialState]

/-- Counting occurrences in a duplicate-free list of ids: a member occurs
exactly once. -/
theorem countJVal_eq_one_of_mem {l : List JVal} {a : JVal} (hnd : l.Nodup)
    (h : a ∈ l) : l.count a = 1 := by
  induction l with
  | nil => cases h
  | cons b l ih =>
    rw [List.count_cons]
    rcases List.mem_cons.mp h with rfl | h2
    · have h0 : l.count a = 0 := by
        rw [List.count_eq_zero]
        exact (List.nodup_cons.mp hnd).1
      simp [h0]
    · have hb : ¬ b = a := by
        rintro rfl
        exact (List.nodup_cons.mp hnd).1 h2
      have h1 := ih (List.nodup_cons.mp hnd).2 h2
      simp [h1, hb]

/-- Every member of a list of times is bounded by listMaxD. -/
theorem le_listMaxD {l : List Nat} {a : Nat} (h : a ∈ l) : a ≤ listMaxD l := by
  induction l with
  | nil => cases h
  | cons b l ih =>
    rcases List.mem_cons.mp h with rfl | h2
    · exact le_max_left _ _
    · exact le_trans (ih h2) (le_max_right _ _)

/-- C4 counterexample: with the two-session registry, when the first
cleanup request rejects at time 1 and the second fulfils only at time 5,
Promise.all rejects at time 1, so handleBeforeUnload resolves at time 1,
strictly before the second dispatched request has settled: contrary to
the claim, closeAll does not always resolve only after every request has
settled. -/
theorem c4_promiseAll_short_circuit_counterexample :
    (handleBeforeUnload exState2 [⟨false, 1⟩, ⟨true, 5⟩]).resolveTime = 1 ∧
    (⟨true, 5⟩ : Settlement) ∈ [(⟨false, 1⟩ : Settlement), ⟨true, 5⟩] ∧
    (1 : Nat) < 5 := by
  refine ⟨rfl, by decide, by decide⟩

/-- C4 (amended): closeAll takes a point-in-time snapshot of the
membership set and issues exactly one delete request per snapshotted id;
all requests are dispatched before the single await of the batch; and
when every request fulfils, closeAll resolves only after the last of them
has settled.  (When some request rejects, Promise.all settles at the
first rejection, possibly before the remaining requests settle.) -/
theorem c4_closeAll_parallel_batch (st : AppState) (outs : List Settlement)
    (hnd : st.sessionIds.Nodup) :
    (handleBeforeUnload st outs).requests = snapshotIds st ∧
    (∀ sid ∈ snapshotIds st,
        (handleBeforeUnload st outs).requests.count sid = 1) ∧
    (closeAllTrace st).getLast? = some BatchEvent.awaitAllSettled ∧
    (∀ sid ∈ snapshotIds st,
        BatchEvent.dispatchDelete sid ∈ (closeAllTrace st).dropLast) ∧
    ((∀ o ∈ outs, o.ok = true) →
        ∀ o ∈ outs, o.time ≤ (handleBeforeUnload st outs).resolveTime) := by
  refine ⟨rfl, ?_, ?_, ?_, ?_⟩
  · intro sid hsid
    exact countJVal_eq_one_of_mem hnd hsid
  · show ((snapshotIds st).map BatchEvent.dispatchDelete
        ++ [BatchEvent.awaitAllSettled]).getLast? = some BatchEvent.awaitAllSettled
    exact List.getLast?_concat _
  · intro sid hsid
    show BatchEvent.dispatchDelete sid
        ∈ ((snapshotIds st).map BatchEvent.dispatchDelete
            ++ [BatchEvent.awaitAllSettled]).dropLast
    rw [List.dropLast_concat]
    exact List.mem_map_of_mem _ hsid
  · intro hok o ho
    have hrej : rejectionTimes outs = [] := by
      unfold rejectionTimes
      have : outs.filter (fun o => !o.ok) = [] := by
        rw [List.filter_eq_nil_iff]
        intro a ha
        simp [hok a ha]
      rw [this]
      rfl
    show o.time ≤ promiseAllTime outs
    unfold promiseAllTime
    rw [hrej]
    exact le_listMaxD (List.mem_map_of_mem _ ho)

/-- Witness for c4_closeAll_parallel_batch at the two-session registry
with both requests fulfilling. -/
theorem c4_closeAll_parallel_batch_witness :
    exState2.sessionIds.Nodup ∧
    (handleBeforeUnload exState2 [⟨true, 3⟩, ⟨true, 4⟩]).requests
        = snapshotIds exState2 :=
  ⟨by decide,
   (c4_closeAll_parallel_batch exState2 [⟨true, 3⟩, ⟨true, 4⟩] (by decide)).1⟩

end Braien
